import Mathlib

/-!
Verification of the jDuel trivia-game backend core against its
natural-language specification.

The definitions below are a shallow embedding of the Python sources under
src/backend/src/app/.  Python dicts are modelled as association lists with
insertion-order update semantics (assignment replaces an existing key in
place, otherwise appends); Python sets are modelled as duplicate-free lists
where insertion appends a missing element.  Wall-clock timestamps are
modelled as integer milliseconds, and every function that reads the clock
in Python (datetime.now) takes the current time as an explicit argument.
Fallible Python code (unguarded dict/list lookups, attribute access) is
embedded in the Except monad.  The answer-correctness oracle
(AnswerService.is_correct) is external to the core per the specification
and is passed as a function parameter.
-/

/-! ## Python container primitives -/

/-- Python dict lookup: first binding of the key, if any. -/
def dictLookup {α : Type} : List (String × α) → String → Option α
  | [], _ => none
  | e :: rest, k => if e.1 = k then some e.2 else dictLookup rest k

/-- Python dict assignment: replace the binding in place if the key exists,
otherwise append a new binding (insertion order). -/
def dictSet {α : Type} : List (String × α) → String → α → List (String × α)
  | [], k, v => [(k, v)]
  | e :: rest, k, v => if e.1 = k then (k, v) :: rest else e :: dictSet rest k v

/-- Python dict deletion: remove the binding of the key, if present. -/
def dictDel {α : Type} : List (String × α) → String → List (String × α)
  | [], _ => []
  | e :: rest, k => if e.1 = k then rest else e :: dictDel rest k

/-- Python set insertion: append the element if it is not already present. -/
def setInsert (s : List String) (x : String) : List String :=
  if x ∈ s then s else s ++ [x]

/-! ## Data model (src/backend/src/app/models/) -/

/-- Enum GameStatus from models/game.py. -/
inductive GameStatus where
  | waiting
  | playing
  | results
  | finished
deriving DecidableEq, Repr

/-- Dataclass Question from models/question.py: the frozen dataclass declares
exactly the fields text, answer and category. -/
structure Question where
  text : String
  answer : String
  category : String
deriving DecidableEq, Repr

/-- Dataclass RoomConfig from models/room_config.py. -/
structure RoomConfig where
  multiple_choice_enabled : Bool
  difficulty : String
deriving DecidableEq, Repr

/-- Dataclass RoundState from models/round_state.py: the dataclass declares
exactly the five fields below (in particular, no shuffled_options field). -/
structure RoundState where
  question_start_time : Option Int
  answered_players : List String
  player_answers : List (String × String)
  correct_players : List String
  question_points : List (String × Int)
deriving DecidableEq, Repr

/-- RoundState() with the dataclass defaults. -/
def RoundState.init : RoundState :=
  { question_start_time := none
    answered_players := []
    player_answers := []
    correct_players := []
    question_points := [] }

/-- Dataclass Room from models/game.py.  WebSocket handles are abstracted as
channel identifiers (Nat); whether a send on a channel succeeds is supplied
externally where broadcast is modelled. -/
structure Room where
  room_id : String
  questions : List Question
  players : List String
  scores : List (String × Int)
  host_id : Option String
  connections : List (String × Nat)
  status : GameStatus
  question_index : Nat
  config : RoomConfig
  current_round : RoundState
  results_start_time : Option Int
  finish_time : Option Int
  session_tokens : List (String × String)
deriving DecidableEq, Repr

/-- Room.__init__ from models/game.py: everything empty, status waiting,
host_id None, default config. -/
def Room.init (room_id : String) (questions : List Question) : Room :=
  { room_id := room_id
    questions := questions
    players := []
    scores := []
    host_id := none
    connections := []
    status := .waiting
    question_index := 0
    config := { multiple_choice_enabled := false, difficulty := "enjoyer" }
    current_round := RoundState.init
    results_start_time := none
    finish_time := none
    session_tokens := [] }

/-! ## Configuration constants (src/backend/src/app/config/game.py) -/

def QUESTION_TIME_MS : Int := 15000

def MAX_SCORE_PER_QUESTION : Int := 1000

/-- DIFFICULTY_RANGES dict from config/game.py. -/
def DIFFICULTY_RANGES : List (String × (Nat × Nat)) :=
  [("enjoyer", (1, 2)), ("master", (2, 4)), ("beast", (4, 5))]

/-! ## GameService (src/backend/src/app/services/core/game_service.py) -/

/-- GameService._calculate_score: 0 for a negative count, otherwise floor
division of MAX_SCORE_PER_QUESTION by 2 to the count. -/
def calculate_score (correct_answer_count : Int) : Int :=
  if correct_answer_count < 0 then 0
  else MAX_SCORE_PER_QUESTION / 2 ^ correct_answer_count.toNat

/-- GameService.process_answer.  The oracle parameter stands for the external
AnswerService.is_correct; now is the value datetime.now(UTC) would read, in
milliseconds.  Unguarded lookups are embedded as Except errors:
room.questions[room.question_index] raises IndexError when out of range,
subtracting a None question_start_time raises TypeError, and
room.scores[player_id] raises KeyError when the player has no entry. -/
def process_answer (oracle : String → String → Bool) (room : Room)
    (player_id answer : String) (now : Int) : Except String (Bool × Room) :=
  if player_id ∈ room.current_round.answered_players then
    Except.ok (false, room)
  else
    let round1 : RoundState :=
      { room.current_round with
        answered_players := setInsert room.current_round.answered_players player_id
        player_answers := dictSet room.current_round.player_answers player_id answer }
    let room1 : Room := { room with current_round := round1 }
    match room1.questions[room1.question_index]? with
    | none => Except.error "IndexError"
    | some current_question =>
      let correct := oracle answer current_question.answer
      if correct then
        let round2 : RoundState :=
          { room1.current_round with
            correct_players := setInsert room1.current_round.correct_players player_id }
        let room2 : Room := { room1 with current_round := round2 }
        match room2.current_round.question_start_time with
        | none => Except.error "TypeError"
        | some start_time =>
          let elapsed_ms := now - start_time
          if elapsed_ms ≤ QUESTION_TIME_MS then
            let correct_count : Int := (room2.current_round.correct_players.length : Int) - 1
            let score := calculate_score correct_count
            match dictLookup room2.scores player_id with
            | none => Except.error "KeyError"
            | some old_score =>
              let room3 : Room :=
                { room2 with
                  scores := dictSet room2.scores player_id (old_score + score)
                  current_round :=
                    { room2.current_round with
                      question_points := dictSet room2.current_round.question_points player_id score } }
              Except.ok (true, room3)
          else
            let room3 : Room :=
              { room2 with
                current_round :=
                  { room2.current_round with
                    question_points := dictSet room2.current_round.question_points player_id 0 } }
            Except.ok (true, room3)
      else
        let room2 : Room :=
          { room1 with
            current_round :=
              { room1.current_round with
                question_points := dictSet room1.current_round.question_points player_id 0 } }
        Except.ok (false, room2)

/-- GameService.all_players_answered. -/
def all_players_answered (room : Room) : Bool :=
  room.current_round.answered_players.length = room.players.length

/-- GameService.advance_question: increments the index, resets the four
per-round collections, then either finishes the game (index past the end)
or stamps a new round start time and stays playing. -/
def advance_question (room : Room) (now : Int) : Bool × Room :=
  let room1 : Room :=
    { room with
      question_index := room.question_index + 1
      current_round :=
        { room.current_round with
          answered_players := []
          player_answers := []
          correct_players := []
          question_points := [] } }
  if room1.question_index ≥ room1.questions.length then
    (false, { room1 with status := .finished, finish_time := some now })
  else
    (true,
      { room1 with
        status := .playing
        current_round := { room1.current_round with question_start_time := some now } })

/-- GameService.start_game: status playing, index 0, fresh start timestamp,
clears answered_players and player_answers, zeroes every entry of scores.
The source does not touch correct_players or question_points. -/
def start_game (room : Room) (now : Int) : Room :=
  { room with
    status := .playing
    question_index := 0
    current_round :=
      { room.current_round with
        question_start_time := some now
        answered_players := []
        player_answers := [] }
    scores := room.scores.map (fun e => (e.1, (0 : Int))) }

/-- GameService.show_results. -/
def show_results (room : Room) (now : Int) : Room :=
  { room with status := .results, results_start_time := some now }

/-- GameService.get_winner: argmax of scores via Python max over dict items
(first item wins ties under max's left-bias on strict improvement). -/
def get_winner (room : Room) : Option String :=
  match room.scores with
  | [] => none
  | e :: rest => some (rest.foldl (fun best x => if x.2 > best.2 then x else best) e).1

/-! ## RoomRepository (src/backend/src/app/services/core/room_repository.py) -/

/-- The repository's rooms dict, room code to Room. -/
abbrev Store := List (String × Room)

/-- RoomRepository.create, with the randomly generated room code supplied as
a parameter (code generation draws random 4-character codes, retrying on
collision, so the 4-character path always yields a code not in the store;
the 6-character fallback is drawn without a uniqueness check). -/
def repo_create (store : Store) (room_id : String) (questions : List Question) : Store :=
  dictSet store room_id (Room.init room_id questions)

/-- RoomRepository.delete. -/
def repo_delete (store : Store) (room_id : String) : Store :=
  dictDel store room_id

/-- RoomRepository.register_player: False if the room is missing or the name
is taken; otherwise adds the player and initializes its score to 0.  The
source never writes host_id (models/game.py documents the host as the first
player to join, and test_room_repository.py asserts it, but no assignment
exists). -/
def register_player (store : Store) (room_id player_id : String) : Bool × Store :=
  match dictLookup store room_id with
  | none => (false, store)
  | some room =>
    if player_id ∈ room.players then (false, store)
    else
      let room1 : Room :=
        { room with
          players := setInsert room.players player_id
          scores := dictSet room.scores player_id 0 }
      (true, dictSet store room_id room1)

/-! ## ConnectionManager (src/backend/src/app/services/core/connection_manager.py) -/

/-- ConnectionManager.attach: False if the room is missing or the player is
not registered; otherwise records the channel under the player's id. -/
def attach (store : Store) (room_id player_id : String) (ws : Nat) : Bool × Store :=
  match dictLookup store room_id with
  | none => (false, store)
  | some room =>
    if player_id ∈ room.players then
      (true,
        dictSet store room_id
          { room with connections := dictSet room.connections player_id ws })
    else (false, store)

/-- ConnectionManager.detach: removes the connection entry if the room exists
and the player has one; the player stays registered. -/
def detach (store : Store) (room_id player_id : String) : Store :=
  match dictLookup store room_id with
  | none => store
  | some room =>
    dictSet store room_id { room with connections := dictDel room.connections player_id }

/-- The loop body of ConnectionManager.broadcast: iterate over the attached
channels in order and attempt a send on each one; a failed send is caught by
the per-iteration try/except (which only logs), so the loop always proceeds
to the remaining channels.  Returns the players whose send succeeded. -/
def broadcast_deliver (sendOk : Nat → Bool) : List (String × Nat) → List String
  | [] => []
  | c :: rest => (if sendOk c.2 then [c.1] else []) ++ broadcast_deliver sendOk rest

/-- ConnectionManager.broadcast: no-op on a missing room; otherwise runs the
send loop.  The except branch only logs, so the store (in particular the
room's connections dict) is returned unchanged. -/
def broadcast (sendOk : Nat → Bool) (store : Store) (room_id : String) :
    Store × List String :=
  match dictLookup store room_id with
  | none => (store, [])
  | some room => (store, broadcast_deliver sendOk room.connections)

/-! ## GameOrchestrator (src/backend/src/app/services/orchestration/orchestrator.py) -/

/-- Modelled from the spec: RoomManager.load_questions_by_difficulty is not
present in src (only its caller GameOrchestrator.handle_start_game and its
test test_room_manager.py are).  Per the spec, starting a game loads
questions for the selected difficulty from the external question source
(getQuestionsByDifficulty(count, minTier, maxTier)) and populates
room.questions; the provider is passed as a parameter, the count is 10. -/
def load_questions_by_difficulty (provider : Nat → Nat → Nat → List Question)
    (store : Store) (room_id : String) (min_diff max_diff : Nat) : Store :=
  match dictLookup store room_id with
  | none => store
  | some room =>
    dictSet store room_id { room with questions := provider 10 min_diff max_diff }

/-- GameOrchestrator.handle_start_game: returns unchanged on a missing room;
rejects when the requester differs from room.host_id (host_id is Optional,
and a str never equals None); otherwise loads questions for the configured
difficulty, returns (with the loaded questions already stored) if none were
loaded, and else applies GameService.start_game.  The source checks no
status precondition.  Broadcasting and timer scheduling do not mutate the
store and are omitted. -/
def handle_start_game (provider : Nat → Nat → Nat → List Question)
    (store : Store) (room_id player_id : String) (now : Int) : Store :=
  match dictLookup store room_id with
  | none => store
  | some room =>
    if room.host_id ≠ some player_id then store
    else
      let range := (dictLookup DIFFICULTY_RANGES room.config.difficulty).getD (1, 2)
      let store1 := load_questions_by_difficulty provider store room_id range.1 range.2
      match dictLookup store1 room_id with
      | none => store1
      | some room1 =>
        if room1.questions = [] then store1
        else dictSet store1 room_id (start_game room1 now)

/-- GameOrchestrator.handle_answer: no-op on a missing room or a status other
than playing; otherwise processes the answer and, if every player has now
answered, transitions to results.  A Python exception escaping
process_answer leaves the store unmodified here (the partial mutation it
leaves behind touches only the current round, not players or connections).
Timer cancellation and broadcasting do not mutate the store. -/
def handle_answer (oracle : String → String → Bool) (store : Store)
    (room_id player_id text : String) (now : Int) : Store :=
  match dictLookup store room_id with
  | none => store
  | some room =>
    if room.status ≠ .playing then store
    else
      match process_answer oracle room player_id text now with
      | Except.error _ => store
      | Except.ok (_, room1) =>
        if all_players_answered room1 then dictSet store room_id (show_results room1 now)
        else dictSet store room_id room1

/-- GameOrchestrator.handle_config_update: host-only and waiting-only;
updates the two known config fields from the request. -/
def handle_config_update (store : Store) (room_id player_id : String)
    (mc : Option Bool) (difficulty : Option String) : Store :=
  match dictLookup store room_id with
  | none => store
  | some room =>
    if room.host_id ≠ some player_id then store
    else if room.status ≠ .waiting then store
    else
      let cfg1 : RoomConfig :=
        match mc with
        | none => room.config
        | some b => { room.config with multiple_choice_enabled := b }
      let cfg2 : RoomConfig :=
        match difficulty with
        | none => cfg1
        | some d =>
          if (dictLookup DIFFICULTY_RANGES d).isSome then { cfg1 with difficulty := d }
          else cfg1
      dictSet store room_id { room with config := cfg2 }

/-- GameOrchestrator.handle_disconnect: detaches the channel; if the room is
then left with no attached connections, cancels its timers and deletes it. -/
def handle_disconnect (store : Store) (room_id player_id : String) : Store :=
  match dictLookup store room_id with
  | none => store
  | some room =>
    let room1 : Room := { room with connections := dictDel room.connections player_id }
    let store1 := dictSet store room_id room1
    if room1.connections = [] then repo_delete store1 room_id else store1

/-- GameOrchestrator._on_question_timeout: transition to results only if the
room still exists and is still playing. -/
def on_question_timeout (store : Store) (room_id : String) (now : Int) : Store :=
  match dictLookup store room_id with
  | none => store
  | some room =>
    if room.status = .playing then dictSet store room_id (show_results room now)
    else store

/-- GameOrchestrator._on_results_timeout: advance the question only if the
room still exists and is still in results. -/
def on_results_timeout (store : Store) (room_id : String) (now : Int) : Store :=
  match dictLookup store room_id with
  | none => store
  | some room =>
    if room.status ≠ .results then store
    else dictSet store room_id (advance_question room now).2

/-! ## Python attribute semantics for StateBuilder._add_playing_state

The multiple-choice branch of StateBuilder._add_playing_state
(src/backend/src/app/services/orchestration/state_builder.py, lines 72-79)
reads current_question.wrong_answers and room.current_round.shuffled_options.
Neither attribute is declared by the corresponding dataclass in src (Question
declares text/answer/category; RoundState declares the five round fields), so
these accesses must be embedded through Python attribute lookup, which raises
AttributeError on a missing name.  An instance's attribute dict holds exactly
the fields its dataclass init assigns. -/

/-- Python runtime values, as far as this code needs them. -/
inductive PyVal where
  | pynone
  | int (n : Int)
  | str (s : String)
  | strList (l : List String)
  | strDict (d : List (String × String))
  | intDict (d : List (String × Int))
deriving DecidableEq, Repr

/-- Python getattr over an instance attribute dict: AttributeError when the
name is absent. -/
def pyGetattr (attrs : List (String × PyVal)) (name : String) : Except String PyVal :=
  match dictLookup attrs name with
  | some v => Except.ok v
  | none => Except.error ("AttributeError: " ++ name)

/-- Python truthiness for the values above. -/
def pyTruthy : PyVal → Bool
  | .pynone => false
  | .int n => n != 0
  | .str s => s != ""
  | .strList l => !l.isEmpty
  | .strDict d => !d.isEmpty
  | .intDict d => !d.isEmpty

/-- Attribute dict of a Question instance: the frozen dataclass init assigns
exactly text, answer and category (models/question.py). -/
def Question.attrs (q : Question) : List (String × PyVal) :=
  [("text", .str q.text), ("answer", .str q.answer), ("category", .str q.category)]

/-- Attribute dict of a RoundState instance: the dataclass init assigns
exactly the five round fields (models/round_state.py). -/
def RoundState.attrs (r : RoundState) : List (String × PyVal) :=
  [ ("question_start_time",
      match r.question_start_time with
      | none => PyVal.pynone
      | some t => PyVal.int t)
  , ("answered_players", PyVal.strList r.answered_players)
  , ("player_answers", PyVal.strDict r.player_answers)
  , ("correct_players", PyVal.strList r.correct_players)
  , ("question_points", PyVal.intDict r.question_points) ]

/-- The options computation of StateBuilder._add_playing_state (lines 63-85):
after the out-of-bounds guard (which logs and returns, leaving no options),
the multiple-choice branch evaluates current_question.wrong_answers and, when
truthy, room.current_round.shuffled_options, caching a shuffled 4-option list
on the first build of a round and reusing it afterwards.  The shuffle
parameter stands for random.shuffle.  With the dataclasses as declared in
src, both attribute reads go through pyGetattr; the cache write on line 77 is
unreachable because the read on line 73 already raises. -/
def add_playing_options (shuffle : List String → List String) (room : Room) :
    Except String (Option (List String)) :=
  if room.question_index ≥ room.questions.length then Except.ok none
  else
    match room.questions[room.question_index]? with
    | none => Except.ok none
    | some current_question =>
      if room.config.multiple_choice_enabled then
        match pyGetattr current_question.attrs "wrong_answers" with
        | Except.error e => Except.error e
        | Except.ok wa =>
          if pyTruthy wa then
            match pyGetattr room.current_round.attrs "shuffled_options" with
            | Except.error e => Except.error e
            | Except.ok so =>
              if so = PyVal.pynone then
                match wa with
                | PyVal.strList l => Except.ok (some (shuffle (current_question.answer :: l)))
                | _ => Except.ok none
              else
                match so with
                | PyVal.strList l => Except.ok (some l)
                | _ => Except.ok none
          else Except.ok none
      else Except.ok none

/-! ## Reachable repository states

One step per externally triggered core operation: room creation, player
registration (HTTP join), connect, disconnect, and the game events (start,
answer, config update, and the two timer callbacks).  External inputs (the
generated room code, the question provider, the answer oracle, the wall
clock) are parameters of the respective steps. -/

inductive Step : Store → Store → Prop where
  | create (store : Store) (room_id : String) (questions : List Question) :
      Step store (repo_create store room_id questions)
  | register (store : Store) (room_id player_id : String) :
      Step store (register_player store room_id player_id).2
  | connect (store : Store) (room_id player_id : String) (ws : Nat) :
      Step store (attach store room_id player_id ws).2
  | disconnect (store : Store) (room_id player_id : String) :
      Step store (handle_disconnect store room_id player_id)
  | start (provider : Nat → Nat → Nat → List Question) (store : Store)
      (room_id player_id : String) (now : Int) :
      Step store (handle_start_game provider store room_id player_id now)
  | answer (oracle : String → String → Bool) (store : Store)
      (room_id player_id text : String) (now : Int) :
      Step store (handle_answer oracle store room_id player_id text now)
  | config (store : Store) (room_id player_id : String)
      (mc : Option Bool) (difficulty : Option String) :
      Step store (handle_config_update store room_id player_id mc difficulty)
  | questionTimeout (store : Store) (room_id : String) (now : Int) :
      Step store (on_question_timeout store room_id now)
  | resultsTimeout (store : Store) (room_id : String) (now : Int) :
      Step store (on_results_timeout store room_id now)

/-- States reachable from the empty repository through the core's operations. -/
inductive Reachable : Store → Prop where
  | init : Reachable []
  | step {s t : Store} : Reachable s → Step s t → Reachable t

/-! ## Helper lemmas about the container primitives -/

theorem dictLookup_dictSet_self {α : Type} (d : List (String × α)) (k : String) (v : α) :
    dictLookup (dictSet d k v) k = some v := by
  induction d with
  | nil => simp [dictSet, dictLookup]
  | cons e rest ih =>
    by_cases h : e.1 = k
    · simp [dictSet, dictLookup, h]
    · simp [dictSet, dictLookup, h, ih]

theorem dictLookup_dictSet_ne {α : Type} (d : List (String × α)) (k k2 : String) (v : α)
    (h : k ≠ k2) : dictLookup (dictSet d k v) k2 = dictLookup d k2 := by
  induction d with
  | nil => simp [dictSet, dictLookup, h]
  | cons e rest ih =>
    by_cases he : e.1 = k
    · simp [dictSet, dictLookup, he, h]
    · by_cases he2 : e.1 = k2
      · simp [dictSet, dictLookup, he, he2, Ne.symm h]
      · simp [dictSet, dictLookup, he, he2, ih]

theorem dictLookup_isSome_dictSet {α : Type} (d : List (String × α)) (k k2 : String) (v : α)
    (h : (dictLookup d k2).isSome) : (dictLookup (dictSet d k v) k2).isSome := by
  by_cases hk : k = k2
  · subst hk; simp [dictLookup_dictSet_self]
  · rwa [dictLookup_dictSet_ne d k k2 v hk]

theorem dictSet_mem {α : Type} {d : List (String × α)} {k : String} {v : α}
    {e : String × α} (h : e ∈ dictSet d k v) : e = (k, v) ∨ e ∈ d := by
  induction d with
  | nil => simpa [dictSet] using h
  | cons f rest ih =>
    by_cases hf : f.1 = k
    · simp only [dictSet, hf, if_pos, List.mem_cons] at h
      rcases h with h | h
      · exact Or.inl h
      · exact Or.inr (List.mem_cons_of_mem f h)
    · simp only [dictSet, hf, if_neg, not_false_iff, List.mem_cons] at h
      rcases h with h | h
      · exact Or.inr (by simp [h])
      · rcases ih h with h2 | h2
        · exact Or.inl h2
        · exact Or.inr (List.mem_cons_of_mem f h2)

theorem dictSet_keys {α : Type} (d : List (String × α)) (k : String) (v : α) :
    (dictSet d k v).map Prod.fst =
      if k ∈ d.map Prod.fst then d.map Prod.fst else d.map Prod.fst ++ [k] := by
  induction d with
  | nil => simp [dictSet]
  | cons e rest ih =>
    by_cases he : e.1 = k
    · simp [dictSet, he]
    · have hne : ¬ k = e.1 := fun h => he h.symm
      by_cases hk : k ∈ rest.map Prod.fst
      · simp [dictSet, he, hk, hne, ih]
      · simp [dictSet, he, hk, hne, ih]

theorem dictSet_keys_nodup {α : Type} (d : List (String × α)) (k : String) (v : α)
    (h : (d.map Prod.fst).Nodup) : ((dictSet d k v).map Prod.fst).Nodup := by
  rw [dictSet_keys]
  by_cases hk : k ∈ d.map Prod.fst
  · simpa [hk]
  · simp only [hk, if_false]
    simp [List.nodup_append, h, hk]

theorem dictDel_sublist {α : Type} (d : List (String × α)) (k : String) :
    List.Sublist (dictDel d k) d := by
  induction d with
  | nil => simp [dictDel]
  | cons e rest ih =>
    by_cases he : e.1 = k
    · simp only [dictDel, he, if_pos]
      exact (List.sublist_cons_self e rest)
    · simp only [dictDel, he, if_neg, not_false_iff]
      exact List.Sublist.cons₂ e ih

theorem dictDel_keys_nodup {α : Type} (d : List (String × α)) (k : String)
    (h : (d.map Prod.fst).Nodup) : ((dictDel d k).map Prod.fst).Nodup :=
  ((dictDel_sublist d k).map Prod.fst).nodup h

theorem dictDel_mem {α : Type} {d : List (String × α)} {k : String} {e : String × α}
    (h : e ∈ dictDel d k) : e ∈ d :=
  (dictDel_sublist d k).mem h

theorem dictLookup_mem {α : Type} {d : List (String × α)} {k : String} {v : α}
    (h : dictLookup d k = some v) : (k, v) ∈ d := by
  induction d with
  | nil => simp [dictLookup] at h
  | cons e rest ih =>
    obtain ⟨a, b⟩ := e
    by_cases he : a = k
    · simp only [dictLookup, he, if_pos] at h
      cases h
      subst he
      exact List.mem_cons_self _ _
    · simp only [dictLookup, he, if_neg, not_false_iff] at h
      exact List.mem_cons_of_mem _ (ih h)

theorem dictLookup_append {α : Type} (d1 d2 : List (String × α)) (k : String) :
    dictLookup (d1 ++ d2) k =
      match dictLookup d1 k with
      | some v => some v
      | none => dictLookup d2 k := by
  induction d1 with
  | nil => simp [dictLookup]
  | cons e rest ih =>
    by_cases he : e.1 = k
    · simp [dictLookup, he]
    · simp [dictLookup, he, ih]

theorem setInsert_mem_of_mem {s : List String} {x y : String} (h : x ∈ s) :
    x ∈ setInsert s y := by
  unfold setInsert
  by_cases hy : y ∈ s
  · simpa [hy]
  · simp [hy, List.mem_append, h]

theorem setInsert_of_not_mem {s : List String} {x : String} (h : x ∉ s) :
    setInsert s x = s ++ [x] := by
  simp [setInsert, h]

/-! ## Concrete fixtures used by witnesses and counterexamples -/

/-- A sample question whose canonical answer is the string 4. -/
def q4 : Question := { text := "What is 2 plus 2", answer := "4", category := "math" }

/-- String-equality stand-in for the external answer oracle. -/
def eqOracle : String → String → Bool := fun a b => a == b

/-! ## C1: host assignment on first registration -/

/-- C1: the claim says the first successful registerPlayer call makes that
player the room's hostId.  Evaluating the code at the failing input (a fresh
room, then registering Alice) shows the registration succeeds and adds the
player, yet host_id is still None: RoomRepository.register_player never
assigns host_id, contradicting the Room docstring (the host is the first
player to join) and the repository's own test
test_register_first_player_becomes_host. -/
theorem register_player_never_sets_host :
    (register_player (repo_create [] "AB3D" []) "AB3D" "Alice").1 = true ∧
    ((dictLookup (register_player (repo_create [] "AB3D" []) "AB3D" "Alice").2 "AB3D").map
      Room.players = some ["Alice"]) ∧
    ((dictLookup (register_player (repo_create [] "AB3D" []) "AB3D" "Alice").2 "AB3D").map
      Room.host_id = some none) := by
  decide

/-! ## C3: duplicate answers are rejected without mutation -/

/-- C3: for every room and every player already contained in the round's
answered set, a further processAnswer call for that player returns False and
leaves the entire room state unchanged (the duplicate guard returns before
any mutation). -/
theorem process_answer_duplicate_is_noop (oracle : String → String → Bool)
    (room : Room) (p a : String) (now : Int)
    (h : p ∈ room.current_round.answered_players) :
    process_answer oracle room p a now = Except.ok (false, room) := by
  unfold process_answer
  simp [h]

/-- Concrete instance of the duplicate guard: Alice already answered. -/
def dupRoom : Room :=
  { Room.init "AB3D" [q4] with
    players := ["Alice"]
    scores := [("Alice", 1000)]
    status := .playing
    current_round :=
      { RoundState.init with
        question_start_time := some 0
        answered_players := ["Alice"]
        player_answers := [("Alice", "4")]
        correct_players := ["Alice"]
        question_points := [("Alice", 1000)] } }

/-- Witness for C3 at a concrete room. -/
theorem process_answer_duplicate_is_noop_witness :
    "Alice" ∈ dupRoom.current_round.answered_players ∧
    process_answer eqOracle dupRoom "Alice" "4" 500 = Except.ok (false, dupRoom) :=
  ⟨by decide, process_answer_duplicate_is_noop eqOracle dupRoom "Alice" "4" 500 (by decide)⟩

/-! ## C2: positional scoring -/

theorem calculate_score_natCast (k : Nat) :
    calculate_score (k : Int) = MAX_SCORE_PER_QUESTION / 2 ^ k := by
  simp [calculate_score]

theorem dictSet_of_lookup_none {α : Type} {d : List (String × α)} {k : String} (v : α)
    (h : dictLookup d k = none) : dictSet d k v = d ++ [(k, v)] := by
  induction d with
  | nil => simp [dictSet]
  | cons e rest ih =>
    by_cases he : e.1 = k
    · simp [dictLookup, he] at h
    · simp only [dictLookup, he, if_neg, not_false_iff] at h
      simp [dictSet, he, ih h]

/-- Evaluation of process_answer on a first-time answer judged correct and
submitted within the allotted time: the player joins the answered and correct
sets, the submitted text is recorded, the score entry is increased by the
positional award, and the round points record that award. -/
theorem process_answer_correct_timely (oracle : String → String → Bool) (room : Room)
    (p a : String) (now t0 : Int) (q : Question) (s : Int)
    (hans : p ∉ room.current_round.answered_players)
    (hcor : p ∉ room.current_round.correct_players)
    (hq : room.questions[room.question_index]? = some q)
    (horacle : oracle a q.answer = true)
    (hstart : room.current_round.question_start_time = some t0)
    (htime : now - t0 ≤ QUESTION_TIME_MS)
    (hscore : dictLookup room.scores p = some s) :
    process_answer oracle room p a now =
      Except.ok (true,
        { room with
          scores := dictSet room.scores p
            (s + calculate_score (room.current_round.correct_players.length : Int))
          current_round :=
            { room.current_round with
              answered_players := room.current_round.answered_players ++ [p]
              player_answers := dictSet room.current_round.player_answers p a
              correct_players := room.current_round.correct_players ++ [p]
              question_points := dictSet room.current_round.question_points p
                (calculate_score (room.current_round.correct_players.length : Int)) } }) := by
  have hcount :
      (((room.current_round.correct_players ++ [p]).length : Int) - 1) =
        (room.current_round.correct_players.length : Int) := by
    simp
  unfold process_answer
  simp only [hans, if_neg, not_false_iff, setInsert_of_not_mem hans,
    setInsert_of_not_mem hcor, hq, horacle, if_pos, hstart, htime, hscore, hcount]

/-- Evaluation of process_answer on a first-time answer judged correct but
submitted after the allotted time: the player still joins the answered and
correct sets, but the round points are zero and the cumulative score is not
touched. -/
theorem process_answer_correct_late (oracle : String → String → Bool) (room : Room)
    (p a : String) (now t0 : Int) (q : Question)
    (hans : p ∉ room.current_round.answered_players)
    (hcor : p ∉ room.current_round.correct_players)
    (hq : room.questions[room.question_index]? = some q)
    (horacle : oracle a q.answer = true)
    (hstart : room.current_round.question_start_time = some t0)
    (htime : ¬ (now - t0 ≤ QUESTION_TIME_MS)) :
    process_answer oracle room p a now =
      Except.ok (true,
        { room with
          current_round :=
            { room.current_round with
              answered_players := room.current_round.answered_players ++ [p]
              player_answers := dictSet room.current_round.player_answers p a
              correct_players := room.current_round.correct_players ++ [p]
              question_points := dictSet room.current_round.question_points p 0 } }) := by
  unfold process_answer
  simp only [hans, if_neg, not_false_iff, setInsert_of_not_mem hans,
    setInsert_of_not_mem hcor, hq, horacle, if_pos, hstart, htime]

/-- Sequential submission of one answer per listed player against the same
room, as the orchestrator does when players answer one after another. -/
def answer_all (oracle : String → String → Bool) (text : String → String)
    (ps : List String) (room : Room) (now : Int) : Except String Room :=
  match ps with
  | [] => Except.ok room
  | p :: rest =>
    match process_answer oracle room p (text p) now with
    | Except.error e => Except.error e
    | Except.ok (_, room1) => answer_all oracle text rest room1 now

/-- Invariant computation behind the N-player scenario: if the round so far
has exactly the players pre answered and correct (in that order), then
letting the listed players answer correctly within time, one after another,
extends the round points by one positional award per player, the k-th new
player earning the award for position pre.length + k. -/
theorem answer_all_points_aux (oracle : String → String → Bool) (text : String → String)
    (now t0 : Int) (q : Question) (htime : now - t0 ≤ QUESTION_TIME_MS) :
    ∀ (ps : List String) (room : Room) (pre : List String),
      room.current_round.answered_players = pre →
      room.current_round.correct_players = pre →
      (pre ++ ps).Nodup →
      room.questions[room.question_index]? = some q →
      room.current_round.question_start_time = some t0 →
      (∀ p ∈ ps, oracle (text p) q.answer = true) →
      (∀ p ∈ ps, (dictLookup room.scores p).isSome) →
      (∀ p ∈ ps, dictLookup room.current_round.question_points p = none) →
      ∃ room2, answer_all oracle text ps room now = Except.ok room2 ∧
        room2.current_round.question_points =
          room.current_round.question_points ++
            (List.enumFrom pre.length ps).map
              (fun e => (e.2, calculate_score (e.1 : Int))) := by
  intro ps
  induction ps with
  | nil =>
    intro room pre _ _ _ _ _ _ _ _
    exact ⟨room, rfl, by simp [answer_all]⟩
  | cons p rest ih =>
    intro room pre hansd hcorr hnd hq hstart horc hsc hqp
    have hpnotpre : p ∉ pre := by
      have := hnd
      rw [List.nodup_append] at this
      exact fun hmem => this.2.2 hmem (List.mem_cons_self p rest)
    have hpnotrest : p ∉ rest := by
      have := hnd
      rw [List.nodup_append] at this
      exact fun hmem => (List.nodup_cons.mp this.2.1).1 hmem
    obtain ⟨s, hs⟩ := Option.isSome_iff_exists.mp (hsc p (List.mem_cons_self p rest))
    have hstep := process_answer_correct_timely oracle room p (text p) now t0 q s
      (by rw [hansd]; exact hpnotpre) (by rw [hcorr]; exact hpnotpre) hq
      (horc p (List.mem_cons_self p rest)) hstart htime hs
    set room1 : Room :=
      { room with
        scores := dictSet room.scores p
          (s + calculate_score (room.current_round.correct_players.length : Int))
        current_round :=
          { room.current_round with
            answered_players := room.current_round.answered_players ++ [p]
            player_answers := dictSet room.current_round.player_answers p (text p)
            correct_players := room.current_round.correct_players ++ [p]
            question_points := dictSet room.current_round.question_points p
              (calculate_score (room.current_round.correct_players.length : Int)) } }
      with hroom1
    have hnd2 : ((pre ++ [p]) ++ rest).Nodup := by
      rw [List.append_assoc]
      exact hnd
    have hqpset : room1.current_round.question_points =
        room.current_round.question_points ++
          [(p, calculate_score (pre.length : Int))] := by
      rw [hroom1]
      simp only [hcorr]
      exact dictSet_of_lookup_none _ (hqp p (List.mem_cons_self p rest))
    obtain ⟨room2, hrun, hpts⟩ := ih room1 (pre ++ [p])
      (by rw [hroom1]; simp [hansd])
      (by rw [hroom1]; simp [hcorr])
      hnd2
      (by rw [hroom1]; simpa using hq)
      (by rw [hroom1]; simpa using hstart)
      (fun p2 h2 => horc p2 (List.mem_cons_of_mem p h2))
      (by
        intro p2 h2
        rw [hroom1]
        exact dictLookup_isSome_dictSet _ _ _ _ (hsc p2 (List.mem_cons_of_mem p h2)))
      (by
        intro p2 h2
        rw [hqpset, dictLookup_append]
        have h1 : dictLookup room.current_round.question_points p2 = none :=
          hqp p2 (List.mem_cons_of_mem p h2)
        have h2ne : ¬ p = p2 := fun he => hpnotrest (he ▸ h2)
        simp [h1, dictLookup, h2ne])
    refine ⟨room2, ?_, ?_⟩
    · unfold answer_all
      rw [hstep]
      exact hrun
    · rw [hpts, hqpset]
      simp only [List.enumFrom, List.map_cons, List.append_assoc, List.length_append,
        List.length_cons, List.length_nil]
      rfl

/-- C2: when processAnswer accepts a first-time answer judged correct by the
oracle, the player is awarded zero round points if the elapsed time since the
round start exceeds the allotted duration, and otherwise
floor(MAX_SCORE_PER_QUESTION / 2 to the k) where k is the number of players
already marked correct before this one; the award is added to the cumulative
score and recorded as the round delta.  Consequently (second conjunct), for a
list of distinct players all answering correctly in order within time
starting from a fresh round, the k-th player (0-indexed) earns
floor(1000 / 2 to the k). -/
theorem process_answer_positional_scoring :
    (∀ (oracle : String → String → Bool) (room : Room) (p a : String) (now t0 : Int)
        (q : Question) (s : Int),
      p ∉ room.current_round.answered_players →
      (∀ x ∈ room.current_round.correct_players, x ∈ room.current_round.answered_players) →
      room.questions[room.question_index]? = some q →
      oracle a q.answer = true →
      room.current_round.question_start_time = some t0 →
      dictLookup room.scores p = some s →
      ∃ room2, process_answer oracle room p a now = Except.ok (true, room2) ∧
        dictLookup room2.current_round.question_points p =
          some (if QUESTION_TIME_MS < now - t0 then 0
            else MAX_SCORE_PER_QUESTION / 2 ^ room.current_round.correct_players.length) ∧
        dictLookup room2.scores p =
          some (s + (if QUESTION_TIME_MS < now - t0 then 0
            else MAX_SCORE_PER_QUESTION / 2 ^ room.current_round.correct_players.length))) ∧
    (∀ (oracle : String → String → Bool) (text : String → String) (ps : List String)
        (room : Room) (now t0 : Int) (q : Question),
      room.current_round.answered_players = [] →
      room.current_round.correct_players = [] →
      room.current_round.question_points = [] →
      ps.Nodup →
      room.questions[room.question_index]? = some q →
      room.current_round.question_start_time = some t0 →
      now - t0 ≤ QUESTION_TIME_MS →
      (∀ p ∈ ps, oracle (text p) q.answer = true) →
      (∀ p ∈ ps, (dictLookup room.scores p).isSome) →
      ∃ room2, answer_all oracle text ps room now = Except.ok room2 ∧
        room2.current_round.question_points =
          (List.enumFrom 0 ps).map
            (fun e => (e.2, MAX_SCORE_PER_QUESTION / 2 ^ e.1))) := by
  constructor
  · intro oracle room p a now t0 q s hans hsub hq horacle hstart hs
    have hcor : p ∉ room.current_round.correct_players := fun hc => hans (hsub p hc)
    by_cases hlt : QUESTION_TIME_MS < now - t0
    · have htime : ¬ (now - t0 ≤ QUESTION_TIME_MS) := not_le.mpr hlt
      refine ⟨_, process_answer_correct_late oracle room p a now t0 q
        hans hcor hq horacle hstart htime, ?_, ?_⟩
      · simp [dictLookup_dictSet_self, hlt]
      · simp [hlt, hs]
    · have htime : now - t0 ≤ QUESTION_TIME_MS := not_lt.mp hlt
      refine ⟨_, process_answer_correct_timely oracle room p a now t0 q s
        hans hcor hq horacle hstart htime hs, ?_, ?_⟩
      · simp [dictLookup_dictSet_self, hlt, calculate_score_natCast]
      · simp [dictLookup_dictSet_self, hlt, calculate_score_natCast]
  · intro oracle text ps room now t0 q hansd hcorr hqp hnd hq hstart htime horc hsc
    obtain ⟨room2, hrun, hpts⟩ :=
      answer_all_points_aux oracle text now t0 q htime ps room [] hansd hcorr
        (by simpa using hnd) hq hstart horc hsc
        (by intro p2 _; rw [hqp]; rfl)
    refine ⟨room2, hrun, ?_⟩
    rw [hpts, hqp]
    simp only [calculate_score_natCast, List.length_nil, List.nil_append]

/-- Two registered players on a fresh playing round of a single question. -/
def playRoom : Room :=
  { Room.init "AB3D" [q4] with
    players := ["Alice", "Bob"]
    scores := [("Alice", 0), ("Bob", 0)]
    status := .playing
    current_round := { RoundState.init with question_start_time := some 0 } }

/-- Witness for C2: Alice answers first (1000 points); Alice then Bob in
order earn 1000 and 500. -/
theorem process_answer_positional_scoring_witness :
    ("Alice" ∉ playRoom.current_round.answered_players) ∧
    (∃ room2, process_answer eqOracle playRoom "Alice" "4" 1000 = Except.ok (true, room2) ∧
      dictLookup room2.current_round.question_points "Alice" = some 1000) ∧
    (∃ room2,
      answer_all eqOracle (fun _ => "4") ["Alice", "Bob"] playRoom 1000 = Except.ok room2 ∧
      room2.current_round.question_points = [("Alice", 1000), ("Bob", 500)]) := by
  refine ⟨by decide, ?_, ?_⟩
  · obtain ⟨room2, h1, h2, h3⟩ :=
      process_answer_positional_scoring.1 eqOracle playRoom "Alice" "4" 1000 0 q4 0
        (by decide) (by decide) (by decide) (by decide) (by decide) (by decide)
    refine ⟨room2, h1, ?_⟩
    rw [h2]
    decide
  · obtain ⟨room2, h1, h2⟩ :=
      process_answer_positional_scoring.2 eqOracle (fun _ => "4") ["Alice", "Bob"]
        playRoom 1000 0 q4 (by decide) (by decide) (by decide) (by decide) (by decide)
        (by decide) (by decide) (by decide) (by decide)
    refine ⟨room2, h1, ?_⟩
    rw [h2]
    decide

/-! ## C6: what startGame actually resets -/

theorem dictLookup_map_zero (d : List (String × Int)) (p : String) :
    dictLookup (d.map (fun e => (e.1, (0 : Int)))) p = (dictLookup d p).map (fun _ => 0) := by
  induction d with
  | nil => simp [dictLookup]
  | cons e rest ih =>
    by_cases he : e.1 = p
    · simp [dictLookup, he]
    · simp [dictLookup, he, ih]

/-- Counterexample for C6: starting a game on a room whose round state still
holds a correct-players set and round points (as the claim allows, since it
quantifies over any prior round state) does not empty them — startGame only
clears the answered set and the submitted answers. -/
def staleRoom : Room :=
  { Room.init "AB3D" [q4] with
    players := ["Alice", "Bob"]
    scores := [("Alice", 700), ("Bob", 0)]
    status := .results
    current_round :=
      { RoundState.init with
        question_start_time := some 0
        answered_players := ["Bob"]
        player_answers := [("Bob", "4")]
        correct_players := ["Bob"]
        question_points := [("Bob", 1000)] } }

/-- Counterexample for C6 at the concrete room staleRoom: after startGame the
correct-players set and round-points map are not empty, contradicting the
claim that the whole round state is fresh regardless of the prior state. -/
theorem start_game_keeps_stale_correct_players :
    (start_game staleRoom 42).current_round.correct_players = ["Bob"] ∧
    (start_game staleRoom 42).current_round.question_points = [("Bob", 1000)] ∧
    ¬ ((start_game staleRoom 42).current_round.correct_players = [] ∧
       (start_game staleRoom 42).current_round.question_points = []) := by
  decide

/-- C6 as amended: after startGame the room is playing at question 0, every
score entry is zeroed, the answered-players set and submitted-answer map are
empty and the round start timestamp is the current time; however the
correct-players set and round-points map are left exactly as they were (the
source resets only answered_players and player_answers). -/
theorem start_game_partial_round_reset (room : Room) (now : Int) :
    (start_game room now).status = GameStatus.playing ∧
    (start_game room now).question_index = 0 ∧
    (start_game room now).current_round.question_start_time = some now ∧
    (start_game room now).current_round.answered_players = [] ∧
    (start_game room now).current_round.player_answers = [] ∧
    (∀ p v, dictLookup room.scores p = some v →
      dictLookup (start_game room now).scores p = some 0) ∧
    (start_game room now).current_round.correct_players =
      room.current_round.correct_players ∧
    (start_game room now).current_round.question_points =
      room.current_round.question_points := by
  refine ⟨rfl, rfl, rfl, rfl, rfl, ?_, rfl, rfl⟩
  intro p v hv
  show dictLookup (room.scores.map (fun e => (e.1, (0 : Int)))) p = some 0
  rw [dictLookup_map_zero, hv]
  rfl

/-- Witness for C6 as amended, at the concrete room staleRoom. -/
theorem start_game_partial_round_reset_witness :
    (dictLookup staleRoom.scores "Alice" = some 700) ∧
    dictLookup (start_game staleRoom 42).scores "Alice" = some 0 :=
  ⟨by decide,
    (start_game_partial_round_reset staleRoom 42).2.2.2.2.2.1 "Alice" 700 (by decide)⟩

/-! ## C7: advancing finishes exactly at the question count -/

/-- Iterated advanceQuestion: component k is the state after k advances, the
k-th advance reading the clock at times k. -/
def advance_iter (room : Room) (times : Nat → Int) : Nat → Bool × Room
  | 0 => (true, room)
  | k + 1 => advance_question (advance_iter room times k).2 (times k)

theorem advance_question_questions (room : Room) (now : Int) :
    (advance_question room now).2.questions = room.questions := by
  unfold advance_question
  by_cases h : room.question_index + 1 ≥ room.questions.length
  · simp [h]
  · simp [h]

theorem advance_iter_questions (room : Room) (times : Nat → Int) (k : Nat) :
    (advance_iter room times k).2.questions = room.questions := by
  induction k with
  | zero => rfl
  | succ k ih => rw [advance_iter, advance_question_questions, ih]

theorem advance_question_index (room : Room) (now : Int) :
    (advance_question room now).2.question_index = room.question_index + 1 := by
  unfold advance_question
  by_cases h : room.question_index + 1 ≥ room.questions.length
  · simp [h]
  · simp [h]

theorem advance_iter_index (room : Room) (times : Nat → Int) (k : Nat) :
    (advance_iter room times k).2.question_index = room.question_index + k := by
  induction k with
  | zero => rfl
  | succ k ih => rw [advance_iter, advance_question_index, ih]; ring

/-- C7: advanceQuestion increments questionIndex and then finishes (status
finished, finishTime recorded, returns false) exactly when the new index
reaches the question count, and otherwise stays playing with a fresh round
start time and returns true; consequently (second conjunct), in a game
started at question 0 with n questions, the k-th advance (1-based, k up to n)
returns true exactly when k < n and leaves the status playing for k < n and
finished exactly at k = n. -/
theorem advance_question_finishes_exactly_at_end :
    (∀ (room : Room) (now : Int),
      (advance_question room now).2.question_index = room.question_index + 1 ∧
      (if room.question_index + 1 ≥ room.questions.length then
        (advance_question room now).1 = false ∧
        (advance_question room now).2.status = GameStatus.finished ∧
        (advance_question room now).2.finish_time = some now
      else
        (advance_question room now).1 = true ∧
        (advance_question room now).2.status = GameStatus.playing ∧
        (advance_question room now).2.current_round.question_start_time = some now)) ∧
    (∀ (room : Room) (times : Nat → Int) (n j : Nat),
      room.question_index = 0 → room.questions.length = n → 1 ≤ n → j + 1 ≤ n →
      ((advance_iter room times (j + 1)).1 = true ↔ j + 1 < n) ∧
      (advance_iter room times (j + 1)).2.status =
        (if j + 1 < n then GameStatus.playing else GameStatus.finished)) := by
  constructor
  · intro room now
    refine ⟨advance_question_index room now, ?_⟩
    by_cases h : room.question_index + 1 ≥ room.questions.length
    · rw [if_pos h]
      unfold advance_question
      simp [h]
    · rw [if_neg h]
      unfold advance_question
      simp [h]
  · intro room times n j hidx hlen _ _
    have hstep : advance_iter room times (j + 1) =
        advance_question (advance_iter room times j).2 (times j) := rfl
    have hpidx : (advance_iter room times j).2.question_index = j := by
      rw [advance_iter_index, hidx]
      ring
    have hplen : (advance_iter room times j).2.questions.length = n := by
      rw [advance_iter_questions, hlen]
    by_cases hlt : j + 1 < n
    · have hc : ¬ ((advance_iter room times j).2.question_index + 1 ≥
          (advance_iter room times j).2.questions.length) := by
        rw [hpidx, hplen]
        omega
      rw [hstep]
      unfold advance_question
      simp [hc, hlt]
    · have hc : (advance_iter room times j).2.question_index + 1 ≥
          (advance_iter room times j).2.questions.length := by
        rw [hpidx, hplen]
        omega
      rw [hstep]
      unfold advance_question
      simp [hc, hlt]

/-- A second sample question. -/
def q6 : Question := { text := "What is 3 plus 3", answer := "6", category := "math" }

/-- A playing room holding two questions at index 0. -/
def gameRoom : Room :=
  { Room.init "AB3D" [q4, q6] with
    players := ["Alice"]
    scores := [("Alice", 0)]
    status := .playing
    current_round := { RoundState.init with question_start_time := some 0 } }

/-- Witness for C7 on a 2-question game: the first advance returns true and
stays playing; the second advance finishes. -/
theorem advance_question_finishes_exactly_at_end_witness :
    (gameRoom.question_index = 0 ∧ gameRoom.questions.length = 2) ∧
    ((advance_iter gameRoom (fun _ => 5) 1).1 = true ↔ 1 < 2) ∧
    ((advance_iter gameRoom (fun _ => 5) 1).2.status =
      (if 1 < 2 then GameStatus.playing else GameStatus.finished)) ∧
    ((advance_iter gameRoom (fun _ => 5) 2).1 = true ↔ 2 < 2) ∧
    ((advance_iter gameRoom (fun _ => 5) 2).2.status =
      (if 2 < 2 then GameStatus.playing else GameStatus.finished)) :=
  ⟨⟨rfl, rfl⟩,
    (advance_question_finishes_exactly_at_end.2 gameRoom (fun _ => 5) 2 0 rfl rfl
      (by decide) (by decide)).1,
    (advance_question_finishes_exactly_at_end.2 gameRoom (fun _ => 5) 2 0 rfl rfl
      (by decide) (by decide)).2,
    (advance_question_finishes_exactly_at_end.2 gameRoom (fun _ => 5) 2 1 rfl rfl
      (by decide) (by decide)).1,
    (advance_question_finishes_exactly_at_end.2 gameRoom (fun _ => 5) 2 1 rfl rfl
      (by decide) (by decide)).2⟩

/-! ## C4: broadcast delivery and (absence of) pruning -/

theorem broadcast_deliver_mem (sendOk : Nat → Bool) :
    ∀ (conns : List (String × Nat)) (p : String) (ws : Nat),
      (p, ws) ∈ conns → sendOk ws = true → p ∈ broadcast_deliver sendOk conns := by
  intro conns
  induction conns with
  | nil => intro p ws h _; simp at h
  | cons c rest ih =>
    obtain ⟨a, b⟩ := c
    intro p ws h hok
    rcases List.mem_cons.mp h with h1 | h1
    · rw [Prod.mk.injEq] at h1
      obtain ⟨hp, hw⟩ := h1
      subst hp
      subst hw
      simp [broadcast_deliver, hok]
    · unfold broadcast_deliver
      simp only [List.mem_append]
      exact Or.inr (ih p ws h1 hok)

/-- C4 as amended: broadcast attempts delivery to every attached channel and
a failure on one channel never prevents delivery to the others (every
channel whose own send succeeds receives the payload, whatever happens on
other channels); however no pruning takes place: the store, and hence the
room's connections map, is returned unchanged even when some sends fail. -/
theorem broadcast_reaches_all_without_pruning (sendOk : Nat → Bool) (store : Store)
    (room_id : String) (room : Room)
    (hroom : dictLookup store room_id = some room) :
    (broadcast sendOk store room_id).1 = store ∧
    ∀ p ws, (p, ws) ∈ room.connections → sendOk ws = true →
      p ∈ (broadcast sendOk store room_id).2 := by
  unfold broadcast
  rw [hroom]
  exact ⟨rfl, fun p ws h hok => broadcast_deliver_mem sendOk room.connections p ws h hok⟩

/-- A room with Alice attached on channel 0 and Bob attached on channel 1. -/
def failChanRoom : Room :=
  { Room.init "AB3D" [] with
    players := ["Alice", "Bob"]
    scores := [("Alice", 0), ("Bob", 0)]
    connections := [("Alice", 0), ("Bob", 1)] }

/-- A send outcome where channel 0 fails and all other channels succeed. -/
def sendFailsOnZero : Nat → Bool := fun ws => ws != 0

/-- Witness for C4 as amended: with the send on channel 0 failing, Bob on
channel 1 still receives the payload and the store is unchanged. -/
theorem broadcast_reaches_all_without_pruning_witness :
    (dictLookup [("AB3D", failChanRoom)] "AB3D" = some failChanRoom) ∧
    (broadcast sendFailsOnZero [("AB3D", failChanRoom)] "AB3D").1 =
      [("AB3D", failChanRoom)] ∧
    "Bob" ∈ (broadcast sendFailsOnZero [("AB3D", failChanRoom)] "AB3D").2 := by
  have h := broadcast_reaches_all_without_pruning sendFailsOnZero
    [("AB3D", failChanRoom)] "AB3D" failChanRoom (by decide)
  exact ⟨by decide, h.1, h.2 "Bob" 1 (by decide) (by decide)⟩

/-- Counterexample for C4 as stated: the send to Alice's channel fails (only
Bob appears in the delivered list), yet Alice's channel is not removed from
the room's connections map — broadcast never prunes. -/
theorem broadcast_failed_channel_not_pruned :
    ((broadcast sendFailsOnZero [("AB3D", failChanRoom)] "AB3D").2 = ["Bob"]) ∧
    ((dictLookup (broadcast sendFailsOnZero [("AB3D", failChanRoom)] "AB3D").1
        "AB3D").map Room.connections = some [("Alice", 0), ("Bob", 1)]) := by
  decide

/-! ## C9: which requests the start-game operation honours -/

/-- C9 as amended: the start-game operation leaves the store completely
unchanged whenever the requester is not the room's host; the room's status is
not consulted. -/
theorem handle_start_game_non_host_unchanged
    (provider : Nat → Nat → Nat → List Question) (store : Store)
    (room_id player_id : String) (now : Int) (room : Room)
    (hroom : dictLookup store room_id = some room)
    (hhost : room.host_id ≠ some player_id) :
    handle_start_game provider store room_id player_id now = store := by
  unfold handle_start_game
  rw [hroom]
  simp [hhost]

/-- A room in the results phase whose host is Alice (host_id set manually, as
the repository never assigns it). -/
def resultsRoom : Room :=
  { Room.init "AB3D" [] with
    host_id := some "Alice"
    players := ["Alice"]
    scores := [("Alice", 340)]
    connections := [("Alice", 0)]
    status := .results }

/-- A question provider returning a single question. -/
def oneQuestionProvider : Nat → Nat → Nat → List Question := fun _ _ _ => [q4]

/-- Witness for C9 as amended: Bob (not the host) requests a start and the
store is unchanged. -/
theorem handle_start_game_non_host_unchanged_witness :
    (dictLookup [("AB3D", resultsRoom)] "AB3D" = some resultsRoom) ∧
    (resultsRoom.host_id ≠ some "Bob") ∧
    handle_start_game oneQuestionProvider [("AB3D", resultsRoom)] "AB3D" "Bob" 7 =
      [("AB3D", resultsRoom)] :=
  ⟨by decide, by decide,
    handle_start_game_non_host_unchanged oneQuestionProvider [("AB3D", resultsRoom)]
      "AB3D" "Bob" 7 resultsRoom (by decide) (by decide)⟩

/-- Counterexample for C9 as stated: the room is in the results phase, yet a
start request by the host mutates it (its status becomes playing) — the
operation never checks that the status is waiting. -/
theorem handle_start_game_mutates_in_results_phase :
    resultsRoom.status = GameStatus.results ∧
    ((dictLookup
        (handle_start_game oneQuestionProvider [("AB3D", resultsRoom)] "AB3D" "Alice" 7)
        "AB3D").map Room.status = some GameStatus.playing) := by
  decide

/-! ## C10: when processAnswer can raise -/

/-- A playing room whose questions list is empty: the question lookup at
index 0 is out of range. -/
def outOfRangeRoom : Room :=
  { Room.init "AB3D" [] with
    players := ["Alice"]
    scores := [("Alice", 0)]
    status := .playing
    current_round := { RoundState.init with question_start_time := some 0 } }

/-- A playing room where Alice is registered in players but has no entry in
the scores map. -/
def noScoreRoom : Room :=
  { Room.init "AB3D" [q4] with
    players := ["Alice"]
    status := .playing
    current_round := { RoundState.init with question_start_time := some 0 } }

/-- A playing room with a question and a score entry but no round start
timestamp. -/
def noStartRoom : Room :=
  { Room.init "AB3D" [q4] with
    players := ["Alice"]
    scores := [("Alice", 0)]
    status := .playing }

/-- C10 as amended: a first-time answer raises no error provided the player
has a scores entry, the question index is in range, and additionally the
round start timestamp is set; the two lookups named by the claim are indeed
unguarded (second and third conjuncts: an out-of-range index raises
IndexError for any first-time answer, and a timely correct answer from a
player absent from scores raises KeyError). -/
theorem process_answer_no_error_with_start_time :
    (∀ (oracle : String → String → Bool) (room : Room) (p a : String) (now t0 : Int),
      p ∉ room.current_round.answered_players →
      (dictLookup room.scores p).isSome →
      room.question_index < room.questions.length →
      room.current_round.question_start_time = some t0 →
      ∃ res, process_answer oracle room p a now = Except.ok res) ∧
    (process_answer eqOracle outOfRangeRoom "Alice" "4" 0 = Except.error "IndexError") ∧
    (process_answer eqOracle noScoreRoom "Alice" "4" 0 = Except.error "KeyError") := by
  refine ⟨?_, by rfl, by rfl⟩
  intro oracle room p a now t0 hans hsc hidx hstart
  obtain ⟨s, hs⟩ := Option.isSome_iff_exists.mp hsc
  have hq : room.questions[room.question_index]? =
      some (room.questions.get ⟨room.question_index, hidx⟩) := by
    rw [List.getElem?_eq_getElem hidx]
    rfl
  cases hres : process_answer oracle room p a now with
  | ok res => exact ⟨res, rfl⟩
  | error e =>
    exfalso
    unfold process_answer at hres
    by_cases hor : oracle a (room.questions.get ⟨room.question_index, hidx⟩).answer = true
    · by_cases ht : now - t0 ≤ QUESTION_TIME_MS
      · simp only [hans, if_neg, not_false_iff, hq, hor, hstart, ht, if_true, hs] at hres
        exact Except.noConfusion hres
      · simp only [hans, if_neg, not_false_iff, hq, hor, hstart, ht, if_true, if_false] at hres
        exact Except.noConfusion hres
    · have hor2 : oracle a (room.questions.get ⟨room.question_index, hidx⟩).answer = false := by
        rwa [Bool.not_eq_true] at hor
      simp only [hans, if_neg, not_false_iff, hq, hor2, Bool.false_eq_true, if_false] at hres
      exact Except.noConfusion hres

/-- Witness for C10 as amended, at a concrete room meeting all three
preconditions. -/
theorem process_answer_no_error_with_start_time_witness :
    (("Alice" ∉ playRoom.current_round.answered_players) ∧
      (dictLookup playRoom.scores "Alice").isSome = true ∧
      playRoom.question_index < playRoom.questions.length ∧
      playRoom.current_round.question_start_time = some 0) ∧
    (∃ res, process_answer eqOracle playRoom "Alice" "4" 20000 = Except.ok res) :=
  ⟨⟨by decide, by decide, by decide, by decide⟩,
    process_answer_no_error_with_start_time.1 eqOracle playRoom "Alice" "4" 20000 0
      (by decide) (by decide) (by decide) (by decide)⟩

/-- Counterexample for C10 as stated: both claimed preconditions hold (Alice
has a scores entry and the index is in range), the answer is a first-time
timely correct one, yet processAnswer raises: the round start timestamp is
None and the elapsed-time subtraction fails. -/
theorem process_answer_error_despite_claimed_preconditions :
    ("Alice" ∉ noStartRoom.current_round.answered_players) ∧
    (dictLookup noStartRoom.scores "Alice").isSome = true ∧
    noStartRoom.question_index < noStartRoom.questions.length ∧
    process_answer eqOracle noStartRoom "Alice" "4" 0 = Except.error "TypeError" := by
  refine ⟨by decide, by decide, by decide, by rfl⟩

/-! ## C5: multiple-choice option caching -/

/-- A playing room with multiple choice enabled and a current question. -/
def mcRoom : Room :=
  { Room.init "AB3D" [q4] with
    players := ["Alice"]
    scores := [("Alice", 0)]
    status := .playing
    config := { multiple_choice_enabled := true, difficulty := "enjoyer" }
    current_round := { RoundState.init with question_start_time := some 0 } }

/-- C5: building the playing snapshot of a multiple-choice round is claimed
to randomize the 4-option order once and cache it on the round state.
Evaluating the embedded builder at the failing input shows it instead raises
AttributeError: the Question dataclass in src declares no wrong_answers
attribute (second conjunct), and the RoundState dataclass declares no
shuffled_options attribute to cache into (third conjunct), although the
database loader, the state builder and the unit tests all rely on both. -/
theorem playing_snapshot_options_attribute_error :
    add_playing_options id mcRoom = Except.error "AttributeError: wrong_answers" ∧
    pyGetattr (Question.attrs q4) "wrong_answers" =
      Except.error "AttributeError: wrong_answers" ∧
    pyGetattr (RoundState.attrs mcRoom.current_round) "shuffled_options" =
      Except.error "AttributeError: shuffled_options" := by
  refine ⟨by rfl, by rfl, by rfl⟩

/-! ## C8: which rooms exist in reachable stores -/

theorem dictLookup_eq_none_of_not_mem_keys {α : Type} {d : List (String × α)} {k : String}
    (h : k ∉ d.map Prod.fst) : dictLookup d k = none := by
  induction d with
  | nil => rfl
  | cons e rest ih =>
    simp only [List.map_cons, List.mem_cons] at h
    push_neg at h
    simp only [dictLookup]
    rw [if_neg (fun he => h.1 he.symm)]
    exact ih h.2

theorem dictLookup_dictDel_self {α : Type} (d : List (String × α)) (k : String)
    (h : (d.map Prod.fst).Nodup) : dictLookup (dictDel d k) k = none := by
  induction d with
  | nil => rfl
  | cons e rest ih =>
    simp only [List.map_cons, List.nodup_cons] at h
    by_cases he : e.1 = k
    · simp only [dictDel, he, if_pos]
      exact dictLookup_eq_none_of_not_mem_keys (he ▸ h.1)
    · simp only [dictDel, he, if_neg, not_false_iff, dictLookup]
      exact ih h.2

/-- The per-room half of the C8 invariant: every attached channel belongs to
a registered player. -/
def connectionsRegistered (room : Room) : Prop :=
  ∀ c ∈ room.connections, c.1 ∈ room.players

/-- Store invariant: room codes are unique keys, and every room satisfies
connectionsRegistered. -/
def StoreInv (s : Store) : Prop :=
  ((s.map Prod.fst).Nodup) ∧ ∀ e ∈ s, connectionsRegistered e.2

theorem StoreInv.lookup {s : Store} {room_id : String} {room : Room}
    (hs : StoreInv s) (h : dictLookup s room_id = some room) :
    connectionsRegistered room :=
  hs.2 (room_id, room) (dictLookup_mem h)

theorem StoreInv.set {s : Store} {room_id : String} {room : Room}
    (hs : StoreInv s) (h : connectionsRegistered room) :
    StoreInv (dictSet s room_id room) := by
  refine ⟨dictSet_keys_nodup s room_id room hs.1, ?_⟩
  intro e he
  rcases dictSet_mem he with he1 | he1
  · rw [he1]
    exact h
  · exact hs.2 e he1

theorem StoreInv.del {s : Store} (room_id : String) (hs : StoreInv s) :
    StoreInv (dictDel s room_id) :=
  ⟨((dictDel_sublist s room_id).map Prod.fst).nodup hs.1,
    fun e he => hs.2 e (dictDel_mem he)⟩

theorem show_results_players_connections (room : Room) (now : Int) :
    (show_results room now).players = room.players ∧
    (show_results room now).connections = room.connections :=
  ⟨rfl, rfl⟩

theorem advance_question_players_connections (room : Room) (now : Int) :
    (advance_question room now).2.players = room.players ∧
    (advance_question room now).2.connections = room.connections := by
  unfold advance_question
  by_cases h : room.question_index + 1 ≥ room.questions.length
  · simp [h]
  · simp [h]

/-- A successful processAnswer call touches only the scores map and the
round state: the players set and the connections map come out unchanged. -/
theorem process_answer_players_connections (oracle : String → String → Bool)
    (room : Room) (p a : String) (now : Int) (b : Bool) (room2 : Room)
    (h : process_answer oracle room p a now = Except.ok (b, room2)) :
    room2.players = room.players ∧ room2.connections = room.connections := by
  unfold process_answer at h
  split at h
  · simp only [Except.ok.injEq, Prod.mk.injEq] at h
    rw [← h.2]
    exact ⟨rfl, rfl⟩
  · dsimp only at h
    split at h
    · exact Except.noConfusion h
    · split at h
      · split at h
        · exact Except.noConfusion h
        · split at h
          · split at h
            · exact Except.noConfusion h
            · simp only [Except.ok.injEq, Prod.mk.injEq] at h
              rw [← h.2]
              exact ⟨rfl, rfl⟩
          · simp only [Except.ok.injEq, Prod.mk.injEq] at h
            rw [← h.2]
            exact ⟨rfl, rfl⟩
      · simp only [Except.ok.injEq, Prod.mk.injEq] at h
        rw [← h.2]
        exact ⟨rfl, rfl⟩


/-- Every core operation preserves the store invariant. -/
theorem step_preserves_inv {s t : Store} (hs : StoreInv s) (hstep : Step s t) :
    StoreInv t := by
  cases hstep with
  | create store room_id questions =>
    unfold repo_create
    refine hs.set ?_
    intro c hc
    simp [Room.init] at hc
  | register store room_id player_id =>
    unfold register_player
    cases hl : dictLookup s room_id with
    | none => exact hs
    | some room =>
      dsimp only
      by_cases hp : player_id ∈ room.players
      · rw [if_pos hp]
        exact hs
      · rw [if_neg hp]
        refine hs.set ?_
        intro c hc
        exact setInsert_mem_of_mem (hs.lookup hl c hc)
  | connect store room_id player_id ws =>
    unfold attach
    cases hl : dictLookup s room_id with
    | none => exact hs
    | some room =>
      dsimp only
      by_cases hp : player_id ∈ room.players
      · rw [if_pos hp]
        refine hs.set ?_
        intro c hc
        rcases dictSet_mem hc with hc1 | hc1
        · rw [hc1]
          exact hp
        · exact hs.lookup hl c hc1
      · rw [if_neg hp]
        exact hs
  | disconnect store room_id player_id =>
    unfold handle_disconnect
    cases hl : dictLookup s room_id with
    | none => exact hs
    | some room =>
      dsimp only
      have h1 : StoreInv (dictSet s room_id
          { room with connections := dictDel room.connections player_id }) := by
        refine hs.set ?_
        intro c hc
        exact hs.lookup hl c (dictDel_mem hc)
      by_cases he : dictDel room.connections player_id = []
      · rw [if_pos he]
        exact h1.del room_id
      · rw [if_neg he]
        exact h1
  | start provider store room_id player_id now =>
    unfold handle_start_game
    cases hl : dictLookup s room_id with
    | none => exact hs
    | some room =>
      dsimp only
      by_cases hh : room.host_id ≠ some player_id
      · rw [if_pos hh]
        exact hs
      · rw [if_neg hh]
        have h1 : StoreInv (load_questions_by_difficulty provider s room_id
            ((dictLookup DIFFICULTY_RANGES room.config.difficulty).getD (1, 2)).1
            ((dictLookup DIFFICULTY_RANGES room.config.difficulty).getD (1, 2)).2) := by
          unfold load_questions_by_difficulty
          rw [hl]
          refine hs.set ?_
          intro c hc
          exact hs.lookup hl c hc
        cases hl2 : dictLookup (load_questions_by_difficulty provider s room_id
            ((dictLookup DIFFICULTY_RANGES room.config.difficulty).getD (1, 2)).1
            ((dictLookup DIFFICULTY_RANGES room.config.difficulty).getD (1, 2)).2)
            room_id with
        | none => exact h1
        | some room1 =>
          dsimp only
          by_cases hq : room1.questions = []
          · rw [if_pos hq]
            exact h1
          · rw [if_neg hq]
            refine h1.set ?_
            intro c hc
            exact h1.lookup hl2 c hc
  | answer oracle store room_id player_id text now =>
    unfold handle_answer
    cases hl : dictLookup s room_id with
    | none => exact hs
    | some room =>
      dsimp only
      by_cases hst : room.status ≠ GameStatus.playing
      · rw [if_pos hst]
        exact hs
      · rw [if_neg hst]
        cases hres : process_answer oracle room player_id text now with
        | error e => exact hs
        | ok res =>
          obtain ⟨b, room1⟩ := res
          dsimp only
          have hpc := process_answer_players_connections oracle room player_id text now
            b room1 hres
          have hconn : connectionsRegistered room1 := by
            intro c hc
            rw [hpc.1]
            exact hs.lookup hl c (hpc.2 ▸ hc)
          by_cases hall : all_players_answered room1
          · rw [if_pos hall]
            refine hs.set ?_
            intro c hc
            exact hconn c hc
          · rw [if_neg hall]
            exact hs.set hconn
  | config store room_id player_id mc difficulty =>
    unfold handle_config_update
    cases hl : dictLookup s room_id with
    | none => exact hs
    | some room =>
      dsimp only
      by_cases hh : room.host_id ≠ some player_id
      · rw [if_pos hh]
        exact hs
      · rw [if_neg hh]
        by_cases hst : room.status ≠ GameStatus.waiting
        · rw [if_pos hst]
          exact hs
        · rw [if_neg hst]
          refine hs.set ?_
          intro c hc
          exact hs.lookup hl c hc
  | questionTimeout store room_id now =>
    unfold on_question_timeout
    cases hl : dictLookup s room_id with
    | none => exact hs
    | some room =>
      dsimp only
      by_cases hst : room.status = GameStatus.playing
      · rw [if_pos hst]
        refine hs.set ?_
        intro c hc
        exact hs.lookup hl c hc
      · rw [if_neg hst]
        exact hs
  | resultsTimeout store room_id now =>
    unfold on_results_timeout
    cases hl : dictLookup s room_id with
    | none => exact hs
    | some room =>
      dsimp only
      by_cases hst : room.status ≠ GameStatus.results
      · rw [if_pos hst]
        exact hs
      · rw [if_neg hst]
        refine hs.set ?_
        intro c hc
        have hpc := advance_question_players_connections room now
        rw [hpc.1]
        exact hs.lookup hl c (hpc.2 ▸ hc)

/-- C8 as amended: in every reachable repository state, room codes are unique
keys and every attached channel belongs to a registered player of its room
(so a room with no registered players also has no attached channels).  The
immediate-deletion rule the code actually enforces concerns connections, not
players: after any disconnect event, every room still present under the
disconnected code has at least one attached channel — a room left with zero
attached channels is deleted on the spot.  Rooms with an empty players set,
by contrast, do exist (see the counterexample). -/
theorem reachable_store_invariant (s : Store) (hs : Reachable s) :
    ((s.map Prod.fst).Nodup) ∧
    (∀ e ∈ s, ∀ c ∈ e.2.connections, c.1 ∈ e.2.players) ∧
    (∀ room_id player_id room2,
      dictLookup (handle_disconnect s room_id player_id) room_id = some room2 →
      room2.connections ≠ []) := by
  have hinv : StoreInv s := by
    induction hs with
    | init => exact ⟨List.nodup_nil, by simp⟩
    | step hr hstep ih => exact step_preserves_inv ih hstep
  refine ⟨hinv.1, hinv.2, ?_⟩
  intro room_id player_id room2 h
  unfold handle_disconnect at h
  cases hl : dictLookup s room_id with
  | none =>
    rw [hl] at h
    dsimp only at h
    rw [hl] at h
    exact Option.noConfusion h
  | some room =>
    rw [hl] at h
    dsimp only at h
    by_cases he : dictDel room.connections player_id = []
    · rw [if_pos he] at h
      have hdel : dictLookup (repo_delete (dictSet s room_id
          { room with connections := dictDel room.connections player_id }) room_id)
          room_id = none :=
        dictLookup_dictDel_self _ _
          (dictSet_keys_nodup s room_id _ hinv.1)
      rw [hdel] at h
      exact Option.noConfusion h
    · rw [if_neg he] at h
      rw [dictLookup_dictSet_self] at h
      cases h
      exact he

/-- Counterexample for C8 as stated: a reachable store (one create step from
the empty repository) contains a room whose players set is empty — rooms are
created with no players and are not deleted for being playerless. -/
theorem empty_players_room_reachable :
    Reachable (repo_create [] "AB3D" []) ∧
    ((dictLookup (repo_create [] "AB3D" []) "AB3D").map Room.players = some []) :=
  ⟨Reachable.step Reachable.init (Step.create [] "AB3D" []), by decide⟩

/-- A reachable store: create a room, register Alice and Bob, attach both. -/
def wstore : Store :=
  (attach
    (attach
      (register_player
        (register_player (repo_create [] "AB3D" []) "AB3D" "Alice").2
        "AB3D" "Bob").2
      "AB3D" "Alice" 0).2
    "AB3D" "Bob" 1).2

theorem wstore_reachable : Reachable wstore :=
  Reachable.step
    (Reachable.step
      (Reachable.step
        (Reachable.step
          (Reachable.step Reachable.init (Step.create [] "AB3D" []))
          (Step.register _ "AB3D" "Alice"))
        (Step.register _ "AB3D" "Bob"))
      (Step.connect _ "AB3D" "Alice" 0))
    (Step.connect _ "AB3D" "Bob" 1)

/-- Witness for C8 as amended, at the concrete reachable store wstore:
disconnecting Alice leaves the room in place (Bob is still attached) and the
theorem yields that its connections are nonempty. -/
theorem reachable_store_invariant_witness :
    Reachable wstore ∧
    (∀ e ∈ wstore, ∀ c ∈ e.2.connections, c.1 ∈ e.2.players) ∧
    (∃ room2, dictLookup (handle_disconnect wstore "AB3D" "Alice") "AB3D" = some room2 ∧
      room2.connections ≠ []) := by
  refine ⟨wstore_reachable, (reachable_store_invariant wstore wstore_reachable).2.1, ?_⟩
  cases hlk : dictLookup (handle_disconnect wstore "AB3D" "Alice") "AB3D" with
  | none => exact absurd hlk (by decide)
  | some room2 =>
    exact ⟨room2, rfl,
      (reachable_store_invariant wstore wstore_reachable).2.2 "AB3D" "Alice" room2 hlk⟩
